import Mathlib

/-!
Verification development for the stagewise animation plugin.

The TypeScript sources are embedded shallowly:

* JavaScript numbers that flow through the validators are modelled as
  rationals; the JavaScript test Number.isInteger holds exactly when the
  denominator is 1.  All values the plugin actually manipulates are
  integers, so the rational model is conservative.
* Strings are Lean strings (lists of characters); lengths count
  characters.
* The timer-based utilities (debounce, memoization with
  timestamps) are modelled with explicit clock parameters: the current
  time is passed in where the source reads the wall clock.
-/

namespace AnimationPlugin

/-- Result record returned by every validator, from types.ts. -/
structure ValidationResult where
  isValid : Bool
  errors : List String
  deriving Repr, DecidableEq

/-- Numeric limits from types.ts (VALIDATION_LIMITS). -/
structure ValidationLimits where
  MIN_DURATION : ℚ
  MAX_DURATION : ℚ
  MIN_DELAY : ℚ
  MAX_DELAY : ℚ
  MAX_ITERATIONS : ℚ
  MIN_CUSTOM_PROPERTY_LENGTH : Nat
  MAX_CUSTOM_PROPERTY_LENGTH : Nat

/-- The concrete limits of types.ts. -/
def VALIDATION_LIMITS : ValidationLimits :=
  { MIN_DURATION := 0
    MAX_DURATION := 30000
    MIN_DELAY := 0
    MAX_DELAY := 10000
    MAX_ITERATIONS := 100
    MIN_CUSTOM_PROPERTY_LENGTH := 1
    MAX_CUSTOM_PROPERTY_LENGTH := 50 }

/-- The common CSS property vocabulary from types.ts (COMMON_PROPERTIES). -/
def COMMON_PROPERTIES : List String :=
  ["opacity", "transform", "background-color", "color", "width", "height",
   "margin", "padding", "border", "box-shadow", "border-radius"]

/-- Animation backend type, from the union type in types.ts. -/
inductive AnimationType where
  | cssTransition
  | cssKeyframes
  | motion
  | reactSpring
  | gsap
  | lottie
  deriving Repr, DecidableEq

/-- The string form of the animation type, as written in the TS union. -/
def AnimationType.asString : AnimationType → String
  | .cssTransition => "css-transition"
  | .cssKeyframes => "css-keyframes"
  | .motion => "motion"
  | .reactSpring => "react-spring"
  | .gsap => "gsap"
  | .lottie => "lottie"

/-- Animation direction, from types.ts. -/
inductive Direction where
  | normal
  | reverse
  | alternate
  | alternateReverse
  deriving Repr, DecidableEq

/-- The string form of a direction. -/
def Direction.asString : Direction → String
  | .normal => "normal"
  | .reverse => "reverse"
  | .alternate => "alternate"
  | .alternateReverse => "alternate-reverse"

/-- Animation fill mode, from types.ts. -/
inductive FillMode where
  | none
  | forwards
  | backwards
  | both
  deriving Repr, DecidableEq

/-- The string form of a fill mode. -/
def FillMode.asString : FillMode → String
  | .none => "none"
  | .forwards => "forwards"
  | .backwards => "backwards"
  | .both => "both"

/-- The iterations field: a number or the sentinel string "infinite". -/
inductive Iterations where
  | num (value : ℚ)
  | infinite
  deriving Repr, DecidableEq

/-- The AnimationConfig record from types.ts.  customOptions is an open
string-keyed bag; values are modelled as strings (the claims only ever
exercise the empty bag). -/
structure AnimationConfig where
  type : AnimationType
  duration : ℚ
  easing : String
  delay : ℚ
  iterations : Iterations
  direction : Direction
  fillMode : FillMode
  properties : List String
  customOptions : List (String × String)
  deriving Repr, DecidableEq

/-- DEFAULT_CONFIG from types.ts. -/
def DEFAULT_CONFIG : AnimationConfig :=
  { type := .cssTransition
    duration := 300
    easing := "ease"
    delay := 0
    iterations := .num 1
    direction := .normal
    fillMode := .both
    properties := ["opacity", "transform"]
    customOptions := [] }

/-- Message pushed by validateDuration when the value is not a
non-negative integer. -/
def durationMinMsg : String :=
  "Duration must be a positive integer (minimum: 0ms)"

/-- Message pushed by validateDuration when the value exceeds the
maximum. -/
def durationMaxMsg : String :=
  "Duration cannot exceed 30000ms (30s)"

/-- Message pushed by validateDelay when the value is not a non-negative
integer. -/
def delayMinMsg : String :=
  "Delay must be a non-negative integer (minimum: 0ms)"

/-- Message pushed by validateDelay when the value exceeds the
maximum. -/
def delayMaxMsg : String :=
  "Delay cannot exceed 10000ms (10s)"

/-- Message pushed by validateIterations for a non-positive or
non-integral count. -/
def iterationsPosMsg : String :=
  "Iterations must be a positive integer or \"infinite\""

/-- Message pushed by validateIterations when the count exceeds the
cap. -/
def iterationsMaxMsg : String :=
  "Iterations cannot exceed 100"

/-- Message pushed by validateCustomProperty for the empty name. -/
def propertyEmptyMsg : String :=
  "Property name cannot be empty"

/-- Message pushed by validateCustomProperty for an over-long name. -/
def propertyLongMsg : String :=
  "Property name cannot exceed 50 characters"

/-- Message pushed by validateCustomProperty when the name fails the CSS
property grammar. -/
def propertyGrammarMsg : String :=
  "Property name must be a valid CSS property (letters, numbers, and hyphens only)"

/-- Message pushed by validateAnimationConfig when the properties array
is empty. -/
def noPropertiesMsg : String :=
  "At least one property must be selected for animation"

/-- The combined message validateAnimationConfig pushes for one invalid
custom property: the offending name followed by that property
validator output joined with a comma separator. -/
def invalidCustomMsg (prop : String) (errs : List String) : String :=
  "Invalid custom property \"" ++ prop ++ "\": " ++ String.intercalate ", " errs

/-- Number.isInteger on the rational model of a JS number. -/
def jsIsInteger (q : ℚ) : Prop := q.den = 1

instance (q : ℚ) : Decidable (jsIsInteger q) := by
  unfold jsIsInteger; infer_instance

/-- validateDuration from error-handling.ts. -/
def validateDuration (value : ℚ) : ValidationResult :=
  let errors :=
    (if ¬ jsIsInteger value ∨ value < VALIDATION_LIMITS.MIN_DURATION
      then [durationMinMsg] else [])
    ++ (if VALIDATION_LIMITS.MAX_DURATION < value then [durationMaxMsg] else [])
  { isValid := errors.isEmpty, errors := errors }

/-- validateDelay from error-handling.ts. -/
def validateDelay (value : ℚ) : ValidationResult :=
  let errors :=
    (if ¬ jsIsInteger value ∨ value < VALIDATION_LIMITS.MIN_DELAY
      then [delayMinMsg] else [])
    ++ (if VALIDATION_LIMITS.MAX_DELAY < value then [delayMaxMsg] else [])
  { isValid := errors.isEmpty, errors := errors }

/-- validateIterations from error-handling.ts. -/
def validateIterations (value : Iterations) : ValidationResult :=
  match value with
  | .infinite => { isValid := true, errors := [] }
  | .num v =>
    let errors :=
      (if ¬ jsIsInteger v ∨ v < 1 then [iterationsPosMsg] else [])
      ++ (if VALIDATION_LIMITS.MAX_ITERATIONS < v then [iterationsMaxMsg] else [])
    { isValid := errors.isEmpty, errors := errors }

/-- The character class [a-zA-Z-] heading the CSS property grammar. -/
def headChar (c : Char) : Bool := c.isAlpha || c == '-'

/-- The character class [a-zA-Z0-9-] for the tail of the grammar. -/
def tailChar (c : Char) : Bool := c.isAlphanum || c == '-'

/-- The regular expression test of error-handling.ts for a CSS property
name: one [a-zA-Z-] character followed by [a-zA-Z0-9-] characters. -/
def matchesCssGrammar (s : String) : Bool :=
  match s.data with
  | [] => false
  | c :: cs => headChar c && cs.all tailChar

/-- validateCustomProperty from error-handling.ts. -/
def validateCustomProperty (property : String) : ValidationResult :=
  let errors :=
    (if property.length < VALIDATION_LIMITS.MIN_CUSTOM_PROPERTY_LENGTH
      then [propertyEmptyMsg] else [])
    ++ (if VALIDATION_LIMITS.MAX_CUSTOM_PROPERTY_LENGTH < property.length
      then [propertyLongMsg] else [])
    ++ (if matchesCssGrammar property then [] else [propertyGrammarMsg])
  { isValid := errors.isEmpty, errors := errors }

/-- validateAnimationConfig from error-handling.ts: the whole-config
validator, appending each field validator output when that field is
invalid, the empty-properties message, and one combined message per
invalid custom (non-common) property. -/
def validateAnimationConfig (config : AnimationConfig) : ValidationResult :=
  let durationResult := validateDuration config.duration
  let delayResult := validateDelay config.delay
  let iterationsResult := validateIterations config.iterations
  let customProperties :=
    config.properties.filter (fun prop => !(COMMON_PROPERTIES.contains prop))
  let errors :=
    (if durationResult.isValid then [] else durationResult.errors)
    ++ (if delayResult.isValid then [] else delayResult.errors)
    ++ (if iterationsResult.isValid then [] else iterationsResult.errors)
    ++ (if config.properties.length = 0 then [noPropertiesMsg] else [])
    ++ customProperties.filterMap (fun prop =>
        let propResult := validateCustomProperty prop
        if propResult.isValid then none
        else some (invalidCustomMsg prop propResult.errors))
  { isValid := errors.isEmpty, errors := errors }

example : (validateAnimationConfig DEFAULT_CONFIG).isValid = true := by decide
example : validateCustomProperty "my-prop" = ⟨true, []⟩ := by decide
example : (validateCustomProperty "my$prop").isValid = false := by decide
example :
    (validateDuration 30001).errors = [durationMaxMsg] := by decide

/-- Whitespace characters stripped by the JavaScript string functions
(ASCII part of the WhiteSpace/LineTerminator productions). -/
def jsWhitespace (c : Char) : Bool :=
  c == ' ' || c == '\t' || c == '\n' || c == '\r' ||
  c == Char.ofNat 11 || c == Char.ofNat 12

/-- Decimal digit character for a value below ten, used to render
numbers the way JavaScript renders integral values. -/
def digitChar (d : Nat) : Char :=
  match d with
  | 0 => '0' | 1 => '1' | 2 => '2' | 3 => '3' | 4 => '4'
  | 5 => '5' | 6 => '6' | 7 => '7' | 8 => '8' | 9 => '9'
  | _ => '*'

/-- Numeric value of a decimal digit character. -/
def digitVal (c : Char) : Nat := c.toNat - 48

/-- Fuel-driven digit expansion; the fuel always exceeds the number, so
the base case is never reached on the calls below. -/
def natToDigitsF : Nat → Nat → List Char
  | 0, _ => []
  | fuel + 1, n =>
    if n < 10 then [digitChar n]
    else natToDigitsF fuel (n / 10) ++ [digitChar (n % 10)]

/-- Most-significant-first decimal digits of a natural number. -/
def natToDigits (n : Nat) : List Char := natToDigitsF (n + 1) n

/-- Decimal rendering of a natural number. -/
def renderNat (n : Nat) : String := ⟨natToDigits n⟩

/-- Decimal rendering of an integer, the way JavaScript renders an
integral number value. -/
def renderInt (i : Int) : String :=
  if i < 0 then ⟨'-' :: natToDigits i.natAbs⟩ else ⟨natToDigits i.toNat⟩

/-- Rendering of a JS number modelled as a rational.  Integral values
render as their decimal digits; non-integral values (which never occur
in the plugin, whose numbers come from parseInt) are rendered as a
fraction as a total stand-in for float formatting. -/
def renderNumber (q : ℚ) : String :=
  if jsIsInteger q then renderInt q.num
  else renderInt q.num ++ "/" ++ renderNat q.den

/-- Value of a list of decimal digit characters, most significant
first. -/
def digitsVal (l : List Char) : Nat :=
  l.foldl (fun a c => 10 * a + digitVal c) 0

/-- The digit-prefix part of JavaScript parseInt with radix 10: the
longest leading run of decimal digits, or none when there is none;
trailing garbage is ignored. -/
def parseDigits (l : List Char) : Option Nat :=
  let ds := l.takeWhile Char.isDigit
  if ds.isEmpty then none else some (digitsVal ds)

/-- JavaScript parseInt(value, 10) on the character list of the input:
skip leading whitespace, consume an optional sign, then the longest run
of decimal digits; NaN (here: none) when no digit follows. -/
def parseInt10Core (l : List Char) : Option Int :=
  match l.dropWhile jsWhitespace with
  | [] => none
  | c :: rest =>
    if c = '-' then (parseDigits rest).map (fun n => -(n : Int))
    else if c = '+' then (parseDigits rest).map (fun n => (n : Int))
    else (parseDigits (c :: rest)).map (fun n => (n : Int))

/-- JavaScript parseInt(value, 10). -/
def parseInt10 (s : String) : Option Int := parseInt10Core s.data

/-- sanitizeNumericInput from error-handling.ts: parseInt, fall back to
the default on NaN, otherwise clamp below at zero. -/
def sanitizeNumericInput (value : String) (defaultValue : Int) : Int :=
  match parseInt10 value with
  | none => defaultValue
  | some parsed => max 0 parsed

/-- The list-level content of String.trim as JavaScript performs it:
drop whitespace from the front and from the back. -/
def trimList (l : List Char) : List Char :=
  ((l.dropWhile jsWhitespace).reverse.dropWhile jsWhitespace).reverse

/-- JavaScript slice(0, end) on a list of characters: a negative end
counts from the back, a non-negative end truncates. -/
def jsSlice0 (l : List Char) (endIdx : Int) : List Char :=
  if endIdx < 0 then l.take (l.length - endIdx.natAbs) else l.take endIdx.toNat

/-- sanitizeStringInput from error-handling.ts: trim, then slice to the
maximum length. -/
def sanitizeStringInput (value : String) (maxLength : Int) : String :=
  ⟨jsSlice0 (trimList value.data) maxLength⟩

example : sanitizeNumericInput "42" 7 = 42 := by decide
example : sanitizeNumericInput "  -3abc" 7 = 0 := by decide
example : sanitizeNumericInput "abc" 7 = 7 := by decide
example : sanitizeNumericInput "x" (-1) = -1 := by decide
example : sanitizeStringInput "  hello  " 100 = "hello" := by decide
example : sanitizeStringInput "a b" 2 = "a " := by decide
example : sanitizeStringInput "ab" (-1) = "a" := by decide

/-- One entry of ANIMATION_TYPES in types.ts. -/
structure AnimationTypeOption where
  value : AnimationType
  label : String
  description : String
  deriving Repr, DecidableEq

/-- The ANIMATION_TYPES table from types.ts. -/
def ANIMATION_TYPES : List AnimationTypeOption :=
  [⟨.cssTransition, "CSS Transitions", "Simple property transitions"⟩,
   ⟨.cssKeyframes, "CSS Keyframes", "Complex keyframe animations"⟩,
   ⟨.motion, "Motion React", "React animation library"⟩,
   ⟨.reactSpring, "React Spring", "Spring-physics animations"⟩,
   ⟨.gsap, "GSAP", "Professional animation library"⟩,
   ⟨.lottie, "Lottie", "After Effects animations"⟩]

/-- toggleProperty from component.tsx, restricted to its effect on the
selected-properties list: remove the property when present, append it
when absent. -/
def toggleProperty (selectedProperties : List String) (property : String) :
    List String :=
  if selectedProperties.contains property then
    selectedProperties.filter (fun p => p != property)
  else
    selectedProperties ++ [property]

/-- addCustomProperty from component.tsx, restricted to its effect on
the selected-properties list: sanitize the raw input, bail out on the
empty string, on a validation failure, or when the property is already
present, otherwise append. -/
def addCustomPropertyProps (selectedProperties : List String)
    (customProperty : String) : List String :=
  let sanitizedProperty :=
    sanitizeStringInput customProperty
      (VALIDATION_LIMITS.MAX_CUSTOM_PROPERTY_LENGTH : Nat)
  if sanitizedProperty = "" then selectedProperties
  else if !(validateCustomProperty sanitizedProperty).isValid then
    selectedProperties
  else if selectedProperties.contains sanitizedProperty then
    selectedProperties
  else selectedProperties ++ [sanitizedProperty]

/-- Rendering of the iterations field in a template literal. -/
def renderIterations : Iterations → String
  | .num q => renderNumber q
  | .infinite => "infinite"

/-- JSON.stringify of the customOptions bag (pretty-printed with indent
two in the source); the claims only exercise the empty bag, whose text
never appears because the surrounding branch requires a non-empty
bag. -/
def renderCustomOptions (options : List (String × String)) : String :=
  if options.isEmpty then "\x7b\x7d"
  else
    "\x7b" ++
      String.intercalate ","
        (options.map (fun kv => "\n  \"" ++ kv.1 ++ "\": \"" ++ kv.2 ++ "\"")) ++
    "\n\x7d"

/-- The contextSuffix string built by onPromptSend in component.tsx for
a validated configuration. -/
def promptText (config : AnimationConfig) : String :=
  let selectedTypeInfo := ANIMATION_TYPES.find? (fun t => t.value == config.type)
  let label1 := (selectedTypeInfo.map (fun t => t.label)).getD "CSS"
  let label2 := (selectedTypeInfo.map (fun t => t.label)).getD config.type.asString
  "\n\n--- Animation Builder Plugin Context ---\n"
  ++ "Please implement a " ++ label1
  ++ " animation on the selected element(s) with these specifications:\n"
  ++ "- Animation Type: " ++ label2 ++ "\n"
  ++ "- Duration: " ++ renderNumber config.duration ++ "ms\n"
  ++ "- Easing: " ++ config.easing ++ "\n"
  ++ "- Delay: " ++ renderNumber config.delay ++ "ms\n"
  ++ "- Iterations: " ++ renderIterations config.iterations ++ "\n"
  ++ "- Direction: " ++ config.direction.asString ++ "\n"
  ++ "- Fill Mode: " ++ config.fillMode.asString ++ "\n"
  ++ "- Properties: " ++ String.intercalate ", " config.properties ++ "\n"
  ++ (if config.customOptions.length = 0 then ""
      else "- Custom Options: " ++ renderCustomOptions config.customOptions ++ "\n")
  ++ "\nApply this animation to the selected element considering its current styles and structure.\n"
  ++ "Follow modern CSS animation best practices and ensure accessibility.\n"
  ++ "--- End Animation Builder Plugin Context ---\n"

/-- One context snippet of the onPromptSend return value. -/
structure ContextSnippet where
  promptContextName : String
  content : String
  deriving Repr, DecidableEq

/-- The onPromptSend return value when the hook contributes context. -/
structure PromptResult where
  contextSnippets : List ContextSnippet
  deriving Repr, DecidableEq

/-- onPromptSend from component.tsx.  The module-scoped
currentAnimationConfig variable becomes the first argument; the
contextElements of the prompt become the second (the undefined case of
the source merges with the empty list, both fail the guard).  The
try/catch of the source maps any internal fault to null; the embedded
body is a total function, so the catch branch has no inhabitant here
and every fault-free path is represented. -/
def onPromptSend (currentAnimationConfig : Option AnimationConfig)
    (contextElements : List String) : Option PromptResult :=
  match currentAnimationConfig with
  | none => none
  | some config =>
    if contextElements.length > 0 then
      if (validateAnimationConfig config).isValid then
        some { contextSnippets :=
          [{ promptContextName := "Animation Implementation Request"
             content := promptText config }] }
      else none
    else none

/-- A cache entry of MemoizationCache in performance.ts. -/
structure CacheEntry (V : Type) where
  value : V
  timestamp : Nat
  deriving Repr, DecidableEq

/-- The MemoizationCache store: a key-to-entry map, modelled
extensionally. -/
def MemoCache (V : Type) : Type := String → Option (CacheEntry V)

/-- MemoizationCache.set: overwrite the entry for the key, stamping the
current time. -/
def cacheSet {V : Type} (cache : MemoCache V) (key : String) (value : V)
    (now : Nat) : MemoCache V :=
  fun k => if k = key then some { value := value, timestamp := now } else cache k

/-- Deletion of one key, performed by MemoizationCache.get on an
expired entry. -/
def cacheDelete {V : Type} (cache : MemoCache V) (key : String) : MemoCache V :=
  fun k => if k = key then none else cache k

/-- MemoizationCache.get, whose TypeScript signature is T-or-null with
null as the miss sentinel.  Stored values are nullable JavaScript
values, modelled as Option V with none standing for null; the returned
Option V is the collapsed T-or-null result, so a stored null comes back
as none exactly like a miss.  A present entry is returned only while
its age is within the ttl; an expired entry is evicted and reported as
a miss.  Returns the looked-up value together with the
possibly-updated store. -/
def cacheGet {V : Type} (cache : MemoCache (Option V)) (key : String)
    (ttl now : Nat) : Option V × MemoCache (Option V) :=
  match cache key with
  | none => (none, cache)
  | some cached =>
    if ttl < now - cached.timestamp then (none, cacheDelete cache key)
    else (cached.value, cache)

/-- DEFAULT_TTL of MemoizationCache: five minutes in milliseconds. -/
def DEFAULT_TTL : Nat := 5 * 60 * 1000

/-- One call of a function wrapped by memoize from performance.ts: look
the fingerprint up, return the cached value when the lookup is not null
(the source tests cached !== null), otherwise invoke the underlying
function and insert the result — even when that result is itself null,
in which case the next lookup will again read null and recompute.  The
third component records whether the underlying function was
invoked. -/
def memoCall {Args V : Type} (f : Args → Option V) (keyGen : Args → String)
    (ttl : Nat) (cache : MemoCache (Option V)) (now : Nat) (args : Args) :
    Option V × MemoCache (Option V) × Bool :=
  match cacheGet cache (keyGen args) ttl now with
  | (some cached, cache') => (some cached, cache', false)
  | (none, cache') =>
    let result := f args
    (result, cacheSet cache' (keyGen args) result now, true)

/-- Trailing-edge debounce semantics of useDebounce and debounce: each
update at time t cancels the pending timer and schedules the value for
time t + delay; the value is propagated when no later update arrives
before its scheduled fire time.  The input is the chronological list of
(time, value) updates, the output the chronological list of (fire time,
value) propagations. -/
def debounceOutputs {α : Type} (delay : Nat) : List (Nat × α) → List (Nat × α)
  | [] => []
  | u :: rest =>
    (match rest with
     | [] => [(u.1 + delay, u.2)]
     | u' :: _ => if u'.1 < u.1 + delay then [] else [(u.1 + delay, u.2)])
    ++ debounceOutputs delay rest

/-- A burst: every update arrives within the quiet period of the
previous one. -/
def rapidBurst {α : Type} (delay : Nat) : List (Nat × α) → Prop
  | [] => True
  | [_] => True
  | u :: u' :: rest => u'.1 < u.1 + delay ∧ rapidBurst delay (u' :: rest)

example : debounceOutputs 10 [(0, "a"), (5, "b"), (9, "c")] = [(19, "c")] := by decide
example : debounceOutputs 10 [(0, "a"), (20, "b")] = [(10, "a"), (30, "b")] := by decide
example : renderInt 300 = "300" := by decide
example : renderInt (-27) = "-27" := by decide
example : renderNumber (300 : ℚ) = "300" := by decide

/-- Per-property error list of the specification: the empty check, then
the length check, then the grammar check. -/
def specPropertyErrors (p : String) : List String :=
  (if p.length < VALIDATION_LIMITS.MIN_CUSTOM_PROPERTY_LENGTH
    then [propertyEmptyMsg] else [])
  ++ (if VALIDATION_LIMITS.MAX_CUSTOM_PROPERTY_LENGTH < p.length
    then [propertyLongMsg] else [])
  ++ (if matchesCssGrammar p then [] else [propertyGrammarMsg])

/-- The error ordering stated by the specification: duration errors,
then delay errors, then iterations errors, then the properties-empty
error, then one combined message per invalid non-common property in
array order, each carrying that property check results in check
order. -/
def specErrorList (c : AnimationConfig) : List String :=
  (validateDuration c.duration).errors
  ++ (validateDelay c.delay).errors
  ++ (validateIterations c.iterations).errors
  ++ (if c.properties = [] then [noPropertiesMsg] else [])
  ++ (c.properties.filter (fun p => !(COMMON_PROPERTIES.contains p))).filterMap
      (fun p =>
        if specPropertyErrors p = [] then none
        else some (invalidCustomMsg p (specPropertyErrors p)))

/-- Remainder of a character list after the first occurrence of a
pattern, or none when the pattern does not occur. -/
def splitAfter (l pat : List Char) : Option (List Char) :=
  match l with
  | [] => if pat.isEmpty then some [] else none
  | c :: rest =>
    if pat.isPrefixOf (c :: rest) then some ((c :: rest).drop pat.length)
    else splitAfter rest pat

/-- Whether the given patterns all occur in the list, in order and
without overlap. -/
def containsInOrder (l : List Char) : List (List Char) → Bool
  | [] => true
  | p :: ps =>
    match splitAfter l p with
    | none => false
    | some r => containsInOrder r ps

example :
    containsInOrder ("xx abc yy def zz").data [("abc").data, ("def").data] = true := by
  decide

/-- Configuration used in the C3 witness: the default with the duration
pushed over the maximum. -/
def over30Config : AnimationConfig := { DEFAULT_CONFIG with duration := 50000 }

/-- Configuration whose properties list repeats a common property. -/
def dupPropsConfig : AnimationConfig :=
  { DEFAULT_CONFIG with properties := ["opacity", "opacity"] }

/-! ## Decimal rendering round-trips with parseInt -/

theorem digitChar_isDigit : ∀ d : Nat, d < 10 → (digitChar d).isDigit = true := by decide

theorem digitVal_digitChar : ∀ d : Nat, d < 10 → digitVal (digitChar d) = d := by decide

theorem natToDigitsF_ne_nil (fuel n : Nat) (h : n < fuel) : natToDigitsF fuel n ≠ [] := by
  induction fuel generalizing n with
  | zero => omega
  | succ fuel ih =>
    by_cases h10 : n < 10
    · simp [natToDigitsF, h10]
    · simp only [natToDigitsF, if_neg h10]
      simp

theorem natToDigitsF_digits (fuel n : Nat) (h : n < fuel) :
    ∀ c ∈ natToDigitsF fuel n, c.isDigit = true := by
  induction fuel generalizing n with
  | zero => omega
  | succ fuel ih =>
    intro c hc
    by_cases h10 : n < 10
    · simp only [natToDigitsF, if_pos h10, List.mem_singleton] at hc
      exact hc ▸ digitChar_isDigit n h10
    · simp only [natToDigitsF, if_neg h10, List.mem_append, List.mem_singleton] at hc
      rcases hc with hc | hc
      · have hdiv : n / 10 < n := Nat.div_lt_self (by omega) (by omega)
        exact ih (n / 10) (by omega) c hc
      · exact hc ▸ digitChar_isDigit (n % 10) (Nat.mod_lt n (by omega))

theorem natToDigitsF_foldl (fuel : Nat) : ∀ n a : Nat, n < fuel →
    List.foldl (fun a c => 10 * a + digitVal c) a (natToDigitsF fuel n)
      = a * 10 ^ (natToDigitsF fuel n).length + n := by
  induction fuel with
  | zero => omega
  | succ fuel ih =>
    intro n a h
    by_cases h10 : n < 10
    · simp only [natToDigitsF, if_pos h10, List.foldl_cons, List.foldl_nil,
        List.length_singleton, pow_one]
      rw [digitVal_digitChar n h10]
      ring
    · have hdiv : n / 10 < n := Nat.div_lt_self (by omega) (by omega)
      have hdivfuel : n / 10 < fuel := by omega
      simp only [natToDigitsF, if_neg h10, List.foldl_append, List.foldl_cons,
        List.foldl_nil, List.length_append, List.length_singleton]
      rw [ih (n / 10) a hdivfuel, digitVal_digitChar (n % 10) (Nat.mod_lt n (by omega))]
      have hm : 10 * (n / 10) + n % 10 = n := Nat.div_add_mod n 10
      calc 10 * (a * 10 ^ (natToDigitsF fuel (n / 10)).length + n / 10) + n % 10
          = a * (10 ^ (natToDigitsF fuel (n / 10)).length * 10)
            + (10 * (n / 10) + n % 10) := by ring
        _ = a * 10 ^ ((natToDigitsF fuel (n / 10)).length + 1) + n := by
            rw [hm, pow_succ]

theorem natToDigits_ne_nil (n : Nat) : natToDigits n ≠ [] :=
  natToDigitsF_ne_nil (n + 1) n (Nat.lt_succ_self n)

theorem natToDigits_digits (n : Nat) : ∀ c ∈ natToDigits n, c.isDigit = true :=
  natToDigitsF_digits (n + 1) n (Nat.lt_succ_self n)

theorem digitsVal_natToDigits (n : Nat) : digitsVal (natToDigits n) = n := by
  unfold digitsVal natToDigits
  rw [natToDigitsF_foldl (n + 1) n 0 (Nat.lt_succ_self n)]
  simp

theorem parseDigits_natToDigits (n : Nat) : parseDigits (natToDigits n) = some n := by
  unfold parseDigits
  rw [List.takeWhile_eq_self_iff.mpr (natToDigits_digits n)]
  rw [if_neg (by simp [List.isEmpty_iff, natToDigits_ne_nil n])]
  rw [digitsVal_natToDigits n]

theorem jsWhitespace_of_digit (c : Char) (h : c.isDigit = true) :
    jsWhitespace c = false := by
  simp only [jsWhitespace, Bool.or_eq_false_iff, beq_eq_false_iff_ne]
  refine ⟨⟨⟨⟨⟨?_, ?_⟩, ?_⟩, ?_⟩, ?_⟩, ?_⟩ <;> (rintro rfl; exact absurd h (by decide))

theorem digit_ne_minus (c : Char) (h : c.isDigit = true) : ¬ c = '-' := by
  rintro rfl; exact absurd h (by decide)

theorem digit_ne_plus (c : Char) (h : c.isDigit = true) : ¬ c = '+' := by
  rintro rfl; exact absurd h (by decide)

theorem parseInt10_renderInt (i : Int) (h : 0 ≤ i) :
    parseInt10 (renderInt i) = some i := by
  obtain ⟨c, t, hct⟩ := List.exists_cons_of_ne_nil (natToDigits_ne_nil i.toNat)
  have hcd : c.isDigit = true :=
    natToDigits_digits i.toNat c (hct ▸ List.mem_cons_self c t)
  have hrender : renderInt i = ⟨natToDigits i.toNat⟩ := by
    unfold renderInt
    rw [if_neg (by omega : ¬ i < 0)]
  rw [hrender]
  show parseInt10Core (natToDigits i.toNat) = some i
  rw [hct]
  unfold parseInt10Core
  rw [List.dropWhile_cons, if_neg (by simp [jsWhitespace_of_digit c hcd])]
  show (if c = '-' then (parseDigits t).map (fun n => -(n : Int))
        else if c = '+' then (parseDigits t).map (fun n => (n : Int))
        else (parseDigits (c :: t)).map (fun n => (n : Int))) = some i
  rw [if_neg (digit_ne_minus c hcd), if_neg (digit_ne_plus c hcd), ← hct,
    parseDigits_natToDigits]
  simp [Int.toNat_of_nonneg h]

/-! ## Sanitizer properties -/

theorem sanitizeNumericInput_nonneg_output (s : String) (fallback : Int)
    (hf : 0 ≤ fallback) : 0 ≤ sanitizeNumericInput s fallback := by
  unfold sanitizeNumericInput
  cases parseInt10 s with
  | none => exact hf
  | some p => exact le_max_left 0 p

theorem sanitizeNumericInput_renderInt (d fallback : Int) (hd : 0 ≤ d) :
    sanitizeNumericInput (renderInt d) fallback = d := by
  unfold sanitizeNumericInput
  rw [parseInt10_renderInt d hd]
  exact max_eq_right hd

/-- String.mk of the character data of a string is that string. -/
theorem string_mk_data : ∀ s : String, String.mk s.data = s := fun ⟨_⟩ => rfl

theorem sanitizeStringInput_data (s : String) (m : Int) (hm : 0 ≤ m) :
    (sanitizeStringInput s m).data = (trimList s.data).take m.toNat := by
  unfold sanitizeStringInput jsSlice0
  rw [if_neg (by omega : ¬ m < 0)]

theorem sanitizeStringInput_length_le (s : String) (m : Int) (hm : 0 ≤ m) :
    ((sanitizeStringInput s m).length : Int) ≤ m := by
  have hdata := sanitizeStringInput_data s m hm
  have hlen : (sanitizeStringInput s m).length
      = ((trimList s.data).take m.toNat).length := by
    show (sanitizeStringInput s m).data.length = _
    rw [hdata]
  rw [hlen]
  have h1 : ((trimList s.data).take m.toNat).length ≤ m.toNat := by
    rw [List.length_take]
    exact min_le_left _ _
  omega

/-- C5 counterexample input: an unparsable string with a negative
fallback makes sanitizeNumericInput return the negative fallback. -/
theorem C5_counterexample : ¬ (0 ≤ sanitizeNumericInput "x" (-1)) := by decide

/-- C5 (amended): sanitizeNumericInput returns every non-negative
integer unchanged from its decimal rendering, returns the fallback on
every unparsable string, and returns an integer that is non-negative
whenever the fallback is non-negative (a negative fallback is passed
through unchanged, so the unconditional non-negativity of the original
claim fails); the function is total, so it never throws. -/
theorem C5_sanitizeNumericInput :
    (∀ d fallback : Int, 0 ≤ d →
      sanitizeNumericInput (renderInt d) fallback = d) ∧
    (∀ (s : String) (fallback : Int), parseInt10 s = none →
      sanitizeNumericInput s fallback = fallback) ∧
    (∀ (s : String) (fallback : Int), 0 ≤ fallback →
      0 ≤ sanitizeNumericInput s fallback) := by
  refine ⟨sanitizeNumericInput_renderInt, ?_, sanitizeNumericInput_nonneg_output⟩
  intro s fallback hnone
  unfold sanitizeNumericInput
  rw [hnone]

/-- C5 witness: the amended theorem evaluated at concrete inputs. -/
theorem C5_witness :
    sanitizeNumericInput (renderInt 42) 7 = 42 ∧
    sanitizeNumericInput "abc" 7 = 7 ∧
    0 ≤ sanitizeNumericInput "-9" 7 :=
  ⟨C5_sanitizeNumericInput.1 42 7 (by decide),
   C5_sanitizeNumericInput.2.1 "abc" 7 (by decide),
   C5_sanitizeNumericInput.2.2 "-9" 7 (by decide)⟩

/-- C6 counterexample input: truncation can expose trailing whitespace,
so sanitizeStringInput is not idempotent on the input consisting of a
letter, a space and a letter with maximum length two. -/
theorem C6_counterexample :
    sanitizeStringInput (sanitizeStringInput "a b" 2) 2 ≠ sanitizeStringInput "a b" 2 := by
  decide

/-- C6 (amended): sanitizeNumericInput is idempotent under decimal
re-rendering for every non-negative fallback; sanitizeStringInput never
returns more characters than a non-negative maximum length, and
re-applying it with the same maximum returns its output unchanged
whenever that output is free of surrounding whitespace (trimming it is
the identity) — truncation can expose trailing whitespace, on which
idempotence fails, as the counterexample shows. -/
theorem C6_sanitizers_idempotent :
    (∀ (s : String) (fallback : Int), 0 ≤ fallback →
      sanitizeNumericInput (renderInt (sanitizeNumericInput s fallback)) fallback
        = sanitizeNumericInput s fallback) ∧
    (∀ (s : String) (m : Int), 0 ≤ m →
      ((sanitizeStringInput s m).length : Int) ≤ m) ∧
    (∀ (s : String) (m : Int), 0 ≤ m →
      trimList (sanitizeStringInput s m).data = (sanitizeStringInput s m).data →
      sanitizeStringInput (sanitizeStringInput s m) m = sanitizeStringInput s m) := by
  refine ⟨?_, sanitizeStringInput_length_le, ?_⟩
  · intro s fallback hf
    exact sanitizeNumericInput_renderInt _ fallback
      (sanitizeNumericInput_nonneg_output s fallback hf)
  · intro s m hm htrim
    have hlen : (sanitizeStringInput s m).data.length ≤ m.toNat := by
      have := sanitizeStringInput_length_le s m hm
      have hL : (sanitizeStringInput s m).length = (sanitizeStringInput s m).data.length := rfl
      omega
    have : sanitizeStringInput (sanitizeStringInput s m) m
        = ⟨(trimList (sanitizeStringInput s m).data).take m.toNat⟩ := by
      unfold sanitizeStringInput jsSlice0
      rw [if_neg (by omega : ¬ m < 0)]
    rw [this, htrim, List.take_of_length_le hlen, string_mk_data]

/-- C6 witness: the amended theorem evaluated at concrete inputs. -/
theorem C6_witness :
    sanitizeNumericInput (renderInt (sanitizeNumericInput "  12 " 3)) 3
      = sanitizeNumericInput "  12 " 3 ∧
    ((sanitizeStringInput "  hello  " 3).length : Int) ≤ 3 ∧
    sanitizeStringInput (sanitizeStringInput "  hello  " 3) 3
      = sanitizeStringInput "  hello  " 3 :=
  ⟨C6_sanitizers_idempotent.1 "  12 " 3 (by decide),
   C6_sanitizers_idempotent.2.1 "  hello  " 3 (by decide),
   C6_sanitizers_idempotent.2.2 "  hello  " 3 (by decide) (by decide)⟩

/-! ## Ordering of the whole-configuration error list -/

theorem errors_guard (b : Bool) (l : List String) (h : b = l.isEmpty) :
    (if b = true then ([] : List String) else l) = l := by
  subst h
  cases l <;> simp

theorem validateDuration_isValid_def (q : ℚ) :
    (validateDuration q).isValid = (validateDuration q).errors.isEmpty := rfl

theorem validateDelay_isValid_def (q : ℚ) :
    (validateDelay q).isValid = (validateDelay q).errors.isEmpty := rfl

theorem validateIterations_isValid_def (v : Iterations) :
    (validateIterations v).isValid = (validateIterations v).errors.isEmpty := by
  cases v <;> rfl

theorem validateCustomProperty_isValid_def (p : String) :
    (validateCustomProperty p).isValid = (validateCustomProperty p).errors.isEmpty := rfl

theorem validateCustomProperty_errors_def (p : String) :
    (validateCustomProperty p).errors = specPropertyErrors p := rfl

theorem config_errors_eq (c : AnimationConfig) :
    (validateAnimationConfig c).errors = specErrorList c := by
  show (if (validateDuration c.duration).isValid = true then []
        else (validateDuration c.duration).errors)
    ++ (if (validateDelay c.delay).isValid = true then []
        else (validateDelay c.delay).errors)
    ++ (if (validateIterations c.iterations).isValid = true then []
        else (validateIterations c.iterations).errors)
    ++ (if c.properties.length = 0 then [noPropertiesMsg] else [])
    ++ (c.properties.filter (fun p => !(COMMON_PROPERTIES.contains p))).filterMap
        (fun p =>
          if (validateCustomProperty p).isValid = true then none
          else some (invalidCustomMsg p (validateCustomProperty p).errors))
    = specErrorList c
  rw [errors_guard _ _ (validateDuration_isValid_def c.duration),
      errors_guard _ _ (validateDelay_isValid_def c.delay),
      errors_guard _ _ (validateIterations_isValid_def c.iterations)]
  have hbody : (fun p =>
      if (validateCustomProperty p).isValid = true then none
      else some (invalidCustomMsg p (validateCustomProperty p).errors))
      = (fun p =>
        if specPropertyErrors p = [] then none
        else some (invalidCustomMsg p (specPropertyErrors p))) := by
    funext p
    rw [validateCustomProperty_isValid_def, validateCustomProperty_errors_def]
    by_cases hp : specPropertyErrors p = []
    · rw [hp]
      simp
    · rw [if_neg hp, if_neg]
      simp [List.isEmpty_iff, hp]
  rw [hbody]
  unfold specErrorList
  simp only [List.length_eq_zero, List.append_assoc]

theorem config_isValid_def (c : AnimationConfig) :
    (validateAnimationConfig c).isValid = (validateAnimationConfig c).errors.isEmpty := rfl

/-- C2: validateAnimationConfig is a pure function of its input (so it
is deterministic), and its error list is exactly: the duration
validator errors, then the delay validator errors, then the iterations
validator errors, then the properties-empty error, then, for each
non-common entry of properties in array order, one message carrying
that entry check results in check order (empty, too long, bad grammar),
prefixed with the offending property name. -/
theorem C2_error_order (c : AnimationConfig) :
    (validateAnimationConfig c).errors = specErrorList c :=
  config_errors_eq c

/-! ## The duration-maximum message occurs exactly once -/

theorem count_ite_singleton (p : Prop) [Decidable p] (x a : String) (h : ¬ x = a) :
    (if p then [x] else []).count a = 0 := by
  split <;> simp [List.count_cons, h]

theorem invalidCustomMsg_head (p : String) (errs : List String) :
    ∃ t, (invalidCustomMsg p errs).data = 'I' :: t := by
  obtain ⟨t0, ht0⟩ : ∃ t0, ("Invalid custom property \"").data = 'I' :: t0 := ⟨_, rfl⟩
  refine ⟨t0 ++ p.data ++ ("\": ").data ++ (String.intercalate ", " errs).data, ?_⟩
  unfold invalidCustomMsg
  rw [String.data_append, String.data_append, String.data_append, ht0]
  simp [List.append_assoc]

theorem invalidCustomMsg_ne_durationMax (p : String) (errs : List String) :
    invalidCustomMsg p errs ≠ durationMaxMsg := by
  intro h
  obtain ⟨t, ht⟩ := invalidCustomMsg_head p errs
  have hd := congrArg String.data h
  rw [ht] at hd
  have hh := congrArg List.head? hd
  have h2 : some 'I' = some 'D' := by
    rw [show durationMaxMsg.data.head? = some 'D' from rfl] at hh
    exact hh
  exact absurd (Option.some.injEq _ _ ▸ h2) (by decide)

theorem count_durMax_duration (q : ℚ) (h : (30000 : ℚ) < q) :
    ((validateDuration q).errors).count durationMaxMsg = 1 := by
  have hmax : VALIDATION_LIMITS.MAX_DURATION < q := h
  show ((if ¬ jsIsInteger q ∨ q < VALIDATION_LIMITS.MIN_DURATION
          then [durationMinMsg] else [])
      ++ (if VALIDATION_LIMITS.MAX_DURATION < q then [durationMaxMsg] else [])).count
        durationMaxMsg = 1
  rw [List.count_append, if_pos hmax,
    count_ite_singleton _ _ _ (by decide : ¬ durationMinMsg = durationMaxMsg)]
  decide

theorem count_durMax_delay (q : ℚ) :
    ((validateDelay q).errors).count durationMaxMsg = 0 := by
  show ((if ¬ jsIsInteger q ∨ q < VALIDATION_LIMITS.MIN_DELAY
          then [delayMinMsg] else [])
      ++ (if VALIDATION_LIMITS.MAX_DELAY < q then [delayMaxMsg] else [])).count
        durationMaxMsg = 0
  rw [List.count_append,
    count_ite_singleton _ _ _ (by decide : ¬ delayMinMsg = durationMaxMsg),
    count_ite_singleton _ _ _ (by decide : ¬ delayMaxMsg = durationMaxMsg)]

theorem count_durMax_iterations (v : Iterations) :
    ((validateIterations v).errors).count durationMaxMsg = 0 := by
  cases v with
  | infinite => rfl
  | num q =>
    show ((if ¬ jsIsInteger q ∨ q < 1 then [iterationsPosMsg] else [])
        ++ (if VALIDATION_LIMITS.MAX_ITERATIONS < q then [iterationsMaxMsg] else [])).count
          durationMaxMsg = 0
    rw [List.count_append,
      count_ite_singleton _ _ _ (by decide : ¬ iterationsPosMsg = durationMaxMsg),
      count_ite_singleton _ _ _ (by decide : ¬ iterationsMaxMsg = durationMaxMsg)]

theorem count_durMax_custom (l : List String) :
    (l.filterMap (fun p =>
        if specPropertyErrors p = [] then none
        else some (invalidCustomMsg p (specPropertyErrors p)))).count
      durationMaxMsg = 0 := by
  rw [List.count_eq_zero]
  intro hmem
  rw [List.mem_filterMap] at hmem
  obtain ⟨p, _, hp⟩ := hmem
  by_cases hpe : specPropertyErrors p = []
  · rw [if_pos hpe] at hp
    exact Option.noConfusion hp
  · rw [if_neg hpe] at hp
    exact invalidCustomMsg_ne_durationMax p _ (Option.some.injEq _ _ ▸ hp)

/-- C3: every configuration whose duration exceeds 30000 is invalid and
carries the duration-maximum message exactly once in its error list,
and the duration validator alone never produces more than two
messages. -/
theorem C3_duration_max (c : AnimationConfig) (h : (30000 : ℚ) < c.duration) :
    ((validateAnimationConfig c).isValid = false ∧
      (validateAnimationConfig c).errors.count durationMaxMsg = 1) ∧
    (∀ q : ℚ, (validateDuration q).errors.length ≤ 2) := by
  have hcount : (validateAnimationConfig c).errors.count durationMaxMsg = 1 := by
    rw [config_errors_eq]
    unfold specErrorList
    simp only [List.count_append]
    rw [count_durMax_duration c.duration h, count_durMax_delay c.delay,
      count_durMax_iterations c.iterations, count_durMax_custom,
      count_ite_singleton _ _ _ (by decide : ¬ noPropertiesMsg = durationMaxMsg)]
  have hne : (validateAnimationConfig c).errors ≠ [] := by
    intro hnil
    rw [hnil] at hcount
    exact absurd hcount (by decide)
  refine ⟨⟨?_, hcount⟩, ?_⟩
  · rw [config_isValid_def, Bool.eq_false_iff]
    intro htrue
    exact hne (List.isEmpty_iff.mp htrue)
  · intro q
    show ((if ¬ jsIsInteger q ∨ q < VALIDATION_LIMITS.MIN_DURATION
            then [durationMinMsg] else [])
        ++ (if VALIDATION_LIMITS.MAX_DURATION < q then [durationMaxMsg] else [])).length ≤ 2
    rw [List.length_append]
    have h1 : (if ¬ jsIsInteger q ∨ q < VALIDATION_LIMITS.MIN_DURATION
        then [durationMinMsg] else []).length ≤ 1 := by split <;> simp
    have h2 : (if VALIDATION_LIMITS.MAX_DURATION < q
        then [durationMaxMsg] else []).length ≤ 1 := by split <;> simp
    omega

/-- C3 witness: the theorem evaluated at a duration of 50000. -/
theorem C3_witness :
    ((validateAnimationConfig over30Config).isValid = false ∧
      (validateAnimationConfig over30Config).errors.count durationMaxMsg = 1) ∧
    (∀ q : ℚ, (validateDuration q).errors.length ≤ 2) :=
  C3_duration_max over30Config (by decide)

/-! ## The custom-property grammar round-trip -/

theorem headChar_false (c : Char) (hc : tailChar c = false) : headChar c = false := by
  simp only [tailChar, Bool.or_eq_false_iff] at hc
  obtain ⟨han, hbe⟩ := hc
  simp only [Char.isAlphanum, Bool.or_eq_false_iff] at han
  simp [headChar, han.1, hbe]

theorem isValid_false_of_grammar_false (p : String)
    (h : matchesCssGrammar p = false) :
    (validateCustomProperty p).isValid = false := by
  rw [validateCustomProperty_isValid_def, Bool.eq_false_iff]
  intro htrue
  have hnil := List.isEmpty_iff.mp htrue
  rw [validateCustomProperty_errors_def] at hnil
  unfold specPropertyErrors at hnil
  rw [h] at hnil
  simp at hnil

/-- C4: every string that matches the CSS property grammar with length
between 1 and 50 passes validateCustomProperty with no errors, and
replacing any single character of it by a disallowed symbol (one that
is neither alphanumeric nor a hyphen) makes validateCustomProperty
report it invalid. -/
theorem C4_grammar_roundtrip (s : String) (hg : matchesCssGrammar s = true)
    (hlo : 1 ≤ s.length) (hhi : s.length ≤ 50) :
    validateCustomProperty s = ⟨true, []⟩ ∧
    ∀ i, i < s.data.length → ∀ c : Char, tailChar c = false →
      (validateCustomProperty ⟨s.data.set i c⟩).isValid = false := by
  constructor
  · have h1 : ¬ s.length < VALIDATION_LIMITS.MIN_CUSTOM_PROPERTY_LENGTH := by
      show ¬ s.length < 1
      omega
    have h2 : ¬ VALIDATION_LIMITS.MAX_CUSTOM_PROPERTY_LENGTH < s.length := by
      show ¬ 50 < s.length
      omega
    simp only [validateCustomProperty]
    rw [if_neg h1, if_neg h2, if_pos hg]
    rfl
  · intro i hi c hc
    obtain ⟨d, ds, hd⟩ : ∃ d ds, s.data = d :: ds := by
      cases hds : s.data with
      | nil =>
        unfold matchesCssGrammar at hg
        rw [hds] at hg
        exact absurd hg (by decide)
      | cons d ds => exact ⟨d, ds, rfl⟩
    apply isValid_false_of_grammar_false
    rw [hd]
    cases i with
    | zero =>
      rw [List.set_cons_zero]
      show (headChar c && ds.all tailChar) = false
      rw [headChar_false c hc, Bool.false_and]
    | succ j =>
      rw [List.set_cons_succ]
      show (headChar d && (ds.set j c).all tailChar) = false
      have hj : j < ds.length := by
        rw [hd] at hi
        simpa using Nat.lt_of_succ_lt_succ hi
      have hmem : c ∈ ds.set j c := by
        have hjl : j < (ds.set j c).length := by simpa using hj
        have hget : (ds.set j c)[j] = c := List.getElem_set_self hjl
        have hm : (ds.set j c)[j] ∈ ds.set j c := List.getElem_mem hjl
        rwa [hget] at hm
      have hall : (ds.set j c).all tailChar = false := by
        rw [Bool.eq_false_iff]
        intro hallt
        have := List.all_eq_true.mp hallt c hmem
        rw [hc] at this
        exact absurd this (by decide)
      rw [hall, Bool.and_false]

/-- C4 witness: the grammar round-trip evaluated on the name my-prop
and on its mutation at index 2 to a dollar sign. -/
theorem C4_witness :
    validateCustomProperty "my-prop" = ⟨true, []⟩ ∧
    (validateCustomProperty ⟨"my-prop".data.set 2 '$'⟩).isValid = false :=
  ⟨(C4_grammar_roundtrip "my-prop" (by decide) (by decide) (by decide)).1,
   (C4_grammar_roundtrip "my-prop" (by decide) (by decide) (by decide)).2
     2 (by decide) '$' (by decide)⟩

/-! ## The end-to-end default-configuration scenario -/

/-- C1: the default configuration validates with no errors, and the
prompt hook invoked with it active and any non-empty selection returns
the context snippet whose text contains the lines Duration 300ms,
Easing ease and Properties opacity-transform, in that order. -/
theorem C1_default_end_to_end :
    validateAnimationConfig DEFAULT_CONFIG = ⟨true, []⟩ ∧
    ∀ contextElements : List String, contextElements ≠ [] →
      onPromptSend (some DEFAULT_CONFIG) contextElements
        = some ⟨[⟨"Animation Implementation Request", promptText DEFAULT_CONFIG⟩]⟩ ∧
      containsInOrder (promptText DEFAULT_CONFIG).data
        [("Duration: 300ms").data, ("Easing: ease").data,
         ("Properties: opacity, transform").data] = true := by
  refine ⟨by decide, ?_⟩
  intro els hne
  have hlen : els.length > 0 := List.length_pos.mpr hne
  refine ⟨?_, by decide⟩
  have hstep : onPromptSend (some DEFAULT_CONFIG) els =
      if els.length > 0 then
        if (validateAnimationConfig DEFAULT_CONFIG).isValid = true then
          some ⟨[⟨"Animation Implementation Request", promptText DEFAULT_CONFIG⟩]⟩
        else none
      else none := rfl
  rw [hstep, if_pos hlen,
    if_pos (by decide : (validateAnimationConfig DEFAULT_CONFIG).isValid = true)]

/-- C1 witness: the end-to-end theorem evaluated at a one-element
selection. -/
theorem C1_witness :
    onPromptSend (some DEFAULT_CONFIG) ["element-1"]
      = some ⟨[⟨"Animation Implementation Request", promptText DEFAULT_CONFIG⟩]⟩ ∧
    containsInOrder (promptText DEFAULT_CONFIG).data
      [("Duration: 300ms").data, ("Easing: ease").data,
       ("Properties: opacity, transform").data] = true :=
  C1_default_end_to_end.2 ["element-1"] (by decide)

/-- C9: the prompt hook returns none whenever there is no active
configuration or no selected context element, and it is a total
function of its inputs — every invocation yields a plain return value
(none or some), never an exception; the try/catch of the source maps
the fault case to the same none result. -/
theorem C9_no_throw :
    (∀ els : List String, onPromptSend none els = none) ∧
    (∀ cfg : Option AnimationConfig, onPromptSend cfg [] = none) ∧
    (∀ (cfg : Option AnimationConfig) (els : List String),
      onPromptSend cfg els = none ∨ ∃ r, onPromptSend cfg els = some r) := by
  refine ⟨fun els => rfl, ?_, ?_⟩
  · intro cfg
    cases cfg with
    | none => rfl
    | some c => rfl
  · intro cfg els
    cases h : onPromptSend cfg els with
    | none => exact Or.inl rfl
    | some r => exact Or.inr ⟨r, rfl⟩

/-! ## Memoization cache behaviour -/

/-- C7 counterexample input: a wrapped function that returns null.  Its
result is cached, but null is also the miss sentinel of
MemoizationCache.get, so the second call with the identical fingerprint
one millisecond later — far inside the default ttl — invokes the
underlying function again: both calls carry the invocation flag. -/
theorem C7_counterexample :
    (memoCall (fun _ : Unit => (none : Option Nat)) (fun _ => "k") DEFAULT_TTL
        (fun _ => none) 0 ()).2.2 = true ∧
    (memoCall (fun _ : Unit => (none : Option Nat)) (fun _ => "k") DEFAULT_TTL
        ((memoCall (fun _ : Unit => (none : Option Nat)) (fun _ => "k") DEFAULT_TTL
            (fun _ => none) 0 ()).2.1) 1 ()).2.2 = true := by
  exact ⟨rfl, rfl⟩

/-- C7 (amended): starting from a miss, the first memoized call invokes
the underlying function and caches its result stamped with the call
time; provided the computed result is not null, a second call with the
identical fingerprint while the entry age is within the ttl returns
the identical cached value without invoking the function again (a null
result is indistinguishable from the miss sentinel and is recomputed
on every call, as the counterexample shows); a call after the age
exceeds the ttl evicts the entry and recomputes, re-inserting the
value stamped with the new time; and insertion always overwrites any
prior entry for the same key.  The default ttl is five minutes. -/
theorem C7_memoize {Args V : Type} (f : Args → Option V) (keyGen : Args → String)
    (ttl : Nat) (cache : MemoCache (Option V)) (t₁ t₂ : Nat) (args : Args)
    (hmiss : cache (keyGen args) = none) (hnn : f args ≠ none) :
    memoCall f keyGen ttl cache t₁ args
      = (f args, cacheSet cache (keyGen args) (f args) t₁, true) ∧
    (t₂ - t₁ ≤ ttl →
      memoCall f keyGen ttl (cacheSet cache (keyGen args) (f args) t₁) t₂ args
        = (f args, cacheSet cache (keyGen args) (f args) t₁, false)) ∧
    (ttl < t₂ - t₁ →
      (memoCall f keyGen ttl (cacheSet cache (keyGen args) (f args) t₁) t₂ args).2.2
          = true ∧
      (memoCall f keyGen ttl (cacheSet cache (keyGen args) (f args) t₁) t₂ args).1
          = f args ∧
      (memoCall f keyGen ttl (cacheSet cache (keyGen args) (f args) t₁) t₂ args).2.1
          (keyGen args) = some ⟨f args, t₂⟩) ∧
    (∀ (c : MemoCache (Option V)) (k : String) (v : Option V) (now : Nat),
      cacheSet c k v now k = some ⟨v, now⟩) ∧
    DEFAULT_TTL = 300000 := by
  have hhit : cacheSet cache (keyGen args) (f args) t₁ (keyGen args)
      = some ⟨f args, t₁⟩ := by
    unfold cacheSet
    rw [if_pos rfl]
  refine ⟨?_, ?_, ?_, ?_, rfl⟩
  · unfold memoCall cacheGet
    rw [hmiss]
  · intro hfresh
    cases hfa : f args with
    | none => exact absurd hfa hnn
    | some v =>
      rw [hfa] at hhit
      unfold memoCall cacheGet
      rw [hhit]
      simp [Nat.not_lt.mpr hfresh]
  · intro hstale
    unfold memoCall cacheGet
    rw [hhit]
    simp only [if_pos hstale]
    refine ⟨trivial, trivial, ?_⟩
    show cacheSet _ (keyGen args) (f args) t₂ (keyGen args) = _
    unfold cacheSet
    rw [if_pos rfl]
  · intro c k v now
    unfold cacheSet
    rw [if_pos rfl]

/-- C7 witness: the cache theorem evaluated on the non-null doubling
function at times 0, then 3 (inside a ttl of 5), with the overwrite
clause at a concrete key. -/
theorem C7_witness :
    memoCall (fun n : Nat => some (n * 2)) (fun _ => "k") 5 (fun _ => none) 0 4
      = (some 8, cacheSet (fun _ => none) "k" (some 8) 0, true) ∧
    memoCall (fun n : Nat => some (n * 2)) (fun _ => "k") 5
        (cacheSet (fun _ => none) "k" (some 8) 0) 3 4
      = (some 8, cacheSet (fun _ => none) "k" (some 8) 0, false) ∧
    cacheSet (fun _ => none) "q" (some 9) 1 "q" = some ⟨some 9, 1⟩ :=
  have h := C7_memoize (fun n : Nat => some (n * 2)) (fun _ => "k") 5
    (fun _ => none) 0 3 4 rfl (by decide)
  ⟨h.1, h.2.1 (by decide), h.2.2.2.1 (fun _ => none) "q" (some 9) 1⟩

/-! ## Debounce behaviour -/

/-- C8: for any burst in which every update arrives within the quiet
period of the previous one, the debounced output is exactly one
propagation carrying the last value of the burst, fired one quiet
period after the last update; no earlier value of the burst is ever
propagated. -/
theorem C8_debounce_last {α : Type} (delay : Nat) (updates : List (Nat × α))
    (last : Nat × α) (hb : rapidBurst delay (updates ++ [last])) :
    debounceOutputs delay (updates ++ [last]) = [(last.1 + delay, last.2)] := by
  induction updates with
  | nil => simp [debounceOutputs]
  | cons u rest ih =>
    cases rest with
    | nil =>
      obtain ⟨hlt, -⟩ := hb
      show ((if last.1 < u.1 + delay then [] else [(u.1 + delay, u.2)])
          ++ debounceOutputs delay ([] ++ [last])) = [(last.1 + delay, last.2)]
      rw [if_pos hlt]
      simp [debounceOutputs]
    | cons u2 rest2 =>
      obtain ⟨hlt, hb2⟩ := hb
      show ((if u2.1 < u.1 + delay then [] else [(u.1 + delay, u.2)])
          ++ debounceOutputs delay ((u2 :: rest2) ++ [last])) = [(last.1 + delay, last.2)]
      rw [if_pos hlt, ih hb2, List.nil_append]

/-- C8 witness: a three-update burst inside a quiet period of ten
propagates only the final value. -/
theorem C8_witness :
    debounceOutputs 10 [(0, "a"), (5, "b"), (9, "c")] = [(19, "c")] :=
  C8_debounce_last 10 [(0, "a"), (5, "b")] (9, "c") (by exact ⟨by omega, by omega, trivial⟩)

/-! ## Duplicates in the properties list -/

/-- C10: validateAnimationConfig does not enforce uniqueness of the
properties list — a configuration listing opacity twice validates —
while the insertion paths preserve uniqueness: toggleProperty and
addCustomProperty both keep a duplicate-free list duplicate-free by
checking membership before appending. -/
theorem C10_no_duplicate_check :
    ((validateAnimationConfig dupPropsConfig).isValid = true ∧
      ¬ dupPropsConfig.properties.Nodup) ∧
    (∀ (props : List String) (p : String), props.Nodup →
      (toggleProperty props p).Nodup) ∧
    (∀ (props : List String) (raw : String), props.Nodup →
      (addCustomPropertyProps props raw).Nodup) := by
  refine ⟨⟨by decide, by decide⟩, ?_, ?_⟩
  · intro props p hnd
    unfold toggleProperty
    split
    · exact hnd.filter _
    · rename_i hc
      rw [List.nodup_append]
      refine ⟨hnd, List.nodup_singleton p, ?_⟩
      intro a ha ha1
      rw [List.mem_singleton] at ha1
      subst ha1
      exact hc (by simpa using ha)
  · intro props raw hnd
    have hgen : ∀ s : String,
        (if s = "" then props
         else if (!(validateCustomProperty s).isValid) = true then props
         else if props.contains s = true then props else props ++ [s]).Nodup := by
      intro s
      split
      · exact hnd
      · split
        · exact hnd
        · split
          · exact hnd
          · rename_i hc
            rw [List.nodup_append]
            refine ⟨hnd, List.nodup_singleton _, ?_⟩
            intro a ha ha1
            rw [List.mem_singleton] at ha1
            subst ha1
            exact hc (by simpa using ha)
    exact hgen
      (sanitizeStringInput raw (VALIDATION_LIMITS.MAX_CUSTOM_PROPERTY_LENGTH : Nat))

/-- C10 witness: the insertion clauses evaluated on duplicate-free
lists. -/
theorem C10_witness :
    (toggleProperty ["width"] "color").Nodup ∧
    (addCustomPropertyProps ["width"] "my-prop").Nodup :=
  ⟨C10_no_duplicate_check.2.1 ["width"] "color" (by decide),
   C10_no_duplicate_check.2.2 ["width"] "my-prop" (by decide)⟩

end AnimationPlugin
